import Mathlib

/-!
Verification of the QuantaView insight-discovery engine.

This file gives a shallow embedding of the analytics core of the repository:
the trade-table builder (`services/data_processor.py`, `get_trades_dataframe`),
the advanced insight engine (`analytics/advanced_insights.py`,
`discover_all_insights` and its detector methods) and the pieces of the basic
pattern detector (`analytics/pattern_detector.py`) that the verified claims
refer to.  Python floats are modelled as exact rationals (`ℚ`); where the
IEEE special values `inf`/`nan` are themselves the subject of a claim the
embedding uses an explicit extended-value type.  Timestamps are modelled as
minute counts from a fixed epoch that falls on a Monday at 00:00, so that
`hour`, `weekday` (Monday = 0) and calendar-day indices are the obvious
arithmetic projections; this matches the timezone-naive wall-clock semantics
of the stored `datetime` values.
-/

namespace QuantaView

/-! ### Data model: trade records and the trade table

`TradeRecord` mirrors the fields of the persisted `Trade` row that
`get_trades_dataframe` reads (`services/data_processor.py` lines 29-51).
`open_time`/`close_time` are minutes since the (Monday 00:00) epoch. -/

structure TradeRecord where
  id : Nat
  account_id : String
  symbol : String
  type : String
  volume : ℚ
  open_price : ℚ
  close_price : Option ℚ
  stop_loss : Option ℚ
  take_profit : Option ℚ
  profit : ℚ
  commission : ℚ
  swap : ℚ
  open_time : Nat
  close_time : Option Nat
deriving DecidableEq, Repr

/-- Hour of day of a timestamp (`datetime.hour`). -/
def hourOfTime (t : Nat) : Nat := t / 60 % 24

/-- Weekday of a timestamp, Monday = 0 (`datetime.weekday()`); the epoch is a
Monday, so the weekday is the day index mod 7. -/
def weekdayOfTime (t : Nat) : Nat := t / 1440 % 7

/-- Calendar-day index of a timestamp (`.dt.date`). -/
def dateOfTime (t : Nat) : Nat := t / 1440

/-- Calendar abstraction of `.dt.isocalendar().week`: the week index of the
day, weeks starting on the (Monday) epoch. -/
def weekOfTime (t : Nat) : Nat := t / 1440 / 7

/-- Calendar abstraction of `.dt.month` (month-of-year in 1..12): months
modelled as consecutive 30-day blocks.  No verified claim depends on month
boundaries; the field is kept because the builder materialises it. -/
def monthOfTime (t : Nat) : Nat := t / 1440 / 30 % 12 + 1

/-- One row of the `TradeTable` built by `get_trades_dataframe`
(`services/data_processor.py` lines 29-59): the record fields plus the
derived columns. -/
structure Row where
  id : Nat
  account_id : String
  symbol : String
  type : String
  volume : ℚ
  open_price : ℚ
  close_price : Option ℚ
  stop_loss : Option ℚ
  take_profit : Option ℚ
  profit : ℚ
  commission : ℚ
  swap : ℚ
  net_profit : ℚ
  open_time : Nat
  close_time : Option Nat
  duration_hours : Option ℚ
  hour_opened : Nat
  day_of_week : Nat
  is_profitable : Bool
  month : Nat
  week_of_year : Nat
  is_weekend : Bool
deriving DecidableEq, Repr

/-- The `_calculate_duration_hours`: `(close_time - open_time).total_seconds()/3600`,
`None` when the trade is still open.  Times are in minutes, hence `/ 60`. -/
def calculateDurationHours (openT : Nat) (closeT : Option Nat) : Option ℚ :=
  match closeT with
  | none => none
  | some c => some (((c : ℚ) - (openT : ℚ)) / 60)

/-- The dictionary built for one trade inside `get_trades_dataframe`,
including the second-pass feature engineering (`month`, `week_of_year`,
`is_weekend`) that the source adds to the same frame. -/
def mkRow (t : TradeRecord) : Row :=
  { id := t.id
    account_id := t.account_id
    symbol := t.symbol
    type := t.type
    volume := t.volume
    open_price := t.open_price
    close_price := t.close_price
    stop_loss := t.stop_loss
    take_profit := t.take_profit
    profit := t.profit
    commission := t.commission
    swap := t.swap
    net_profit := t.profit + t.commission + t.swap
    open_time := t.open_time
    close_time := t.close_time
    duration_hours := calculateDurationHours t.open_time t.close_time
    hour_opened := hourOfTime t.open_time
    day_of_week := weekdayOfTime t.open_time
    is_profitable := decide (t.profit + t.commission + t.swap > 0)
    month := monthOfTime t.open_time
    week_of_year := weekOfTime t.open_time
    is_weekend := decide (weekdayOfTime t.open_time = 5 ∨ weekdayOfTime t.open_time = 6) }

/-- The `get_trades_dataframe`: one row per fetched trade (an empty record list
yields the empty frame). -/
def get_trades_dataframe (trades : List TradeRecord) : List Row :=
  trades.map mkRow

/-! ### Insights

An insight is emitted by a detector as a dict with keys `type`, `title`,
`description`, `value`, `confidence`, `recommendation`.  The `title`,
`description` and `recommendation` strings are human-readable text whose
content no verified claim depends on; the embedding keeps the semantic
fields. -/

structure Insight where
  type : String
  value : ℚ
  confidence : ℚ
deriving DecidableEq, Repr

/-! ### Ranking and selection (`discover_all_insights` lines 69-72)

`insights.sort(key=lambda x: x['confidence'] * abs(x.get('value', 0)),
reverse=True)` is a stable descending sort by `confidence * |value|`;
`insights[:20]` keeps the first twenty.  A stable descending sort is uniquely
determined by the key, so it is embedded with `List.insertionSort` over the
"greater-or-equal rank key" relation, which Mathlib's `insertionSort`
implements stably (earlier elements stay before later equal-key ones). -/

def rankKey (i : Insight) : ℚ := i.confidence * |i.value|

/-- The sort relation of the ranking stage: `a` may come before `b` iff the
rank key of `a` is at least that of `b`. -/
def keyGE (a b : Insight) : Prop := rankKey b ≤ rankKey a

instance : DecidableRel keyGE := fun a b =>
  inferInstanceAs (Decidable (rankKey b ≤ rankKey a))

instance : IsTotal Insight keyGE :=
  ⟨fun a b => (le_total (rankKey a) (rankKey b)).elim Or.inr Or.inl⟩

instance : IsTrans Insight keyGE :=
  ⟨fun _ _ _ hab hbc => le_trans hbc hab⟩

/-- The stable descending sort of the ranking stage. -/
def sortInsightsDesc (l : List Insight) : List Insight :=
  List.insertionSort keyGE l

/-- Lines 69-72 of `discover_all_insights`: sort by importance and return the
top 20 insights. -/
def rankAndSelect (l : List Insight) : List Insight :=
  (sortInsightsDesc l).take 20

/-- Elements placed before an inserted element by `orderedInsert keyGE` have a
strictly larger rank key, so inserting never reorders elements of any fixed
key: the filter at each key value is preserved. -/
lemma filter_orderedInsert_rankKey (x : Insight) (s : List Insight) (q : ℚ) :
    (List.orderedInsert keyGE x s).filter (fun y => decide (rankKey y = q)) =
      if rankKey x = q then
        x :: s.filter (fun y => decide (rankKey y = q))
      else s.filter (fun y => decide (rankKey y = q)) := by
  induction s with
  | nil =>
    by_cases hx : rankKey x = q <;>
      simp [List.orderedInsert, List.filter, hx]
  | cons b s ih =>
    by_cases hbx : keyGE x b
    · rw [List.orderedInsert_of_le _ _ hbx]
      by_cases hx : rankKey x = q <;>
        simp [List.filter, hx]
    · have hlt : rankKey x < rankKey b := lt_of_not_le hbx
      have : List.orderedInsert keyGE x (b :: s) =
          b :: List.orderedInsert keyGE x s := by
        simp [List.orderedInsert, hbx]
      rw [this]
      by_cases hb : rankKey b = q
      · have hxq : rankKey x ≠ q := fun h => absurd hb (by rw [← h]; exact ne_of_gt hlt)
        simp [List.filter, hb, hxq] at ih ⊢
        exact ih
      · by_cases hx : rankKey x = q <;>
          simp [List.filter, hb, hx] at ih ⊢ <;> exact ih

/-- The ranking sort is stable: for every key value, the subsequence of
insights having that key is exactly the one of the input list, in the same
order. -/
lemma filter_sortInsightsDesc (l : List Insight) (q : ℚ) :
    (sortInsightsDesc l).filter (fun y => decide (rankKey y = q)) =
      l.filter (fun y => decide (rankKey y = q)) := by
  induction l with
  | nil => rfl
  | cons x l ih =>
    unfold sortInsightsDesc at ih ⊢
    rw [List.insertionSort, filter_orderedInsert_rankKey]
    by_cases hx : rankKey x = q <;> simp [List.filter, hx, ih]

/-- A sample trade used by witness theorems. -/
def sampleTrade : TradeRecord :=
  { id := 1, account_id := "acct", symbol := "EURUSD", type := "buy"
    volume := 1, open_price := 1, close_price := some 2
    stop_loss := none, take_profit := none
    profit := 10, commission := -1, swap := -2
    open_time := 9 * 60, close_time := some (10 * 60) }

/-! ### The engine boundary (C2)

`discover_all_insights` (lines 17-72) builds the table, returns `[]` for an
empty table, then runs every detector in sequence with
`insights.extend(self._analyze_...(df))`.  There is no `try`/`except` around
any detector call, so a detector that raises aborts the remaining detectors
and the exception leaves `discover_all_insights`.  The HTTP router
(`routers/analytics.py`, `get_trading_insights` lines 22-32) wraps the whole
call in `try`/`except` and converts any exception into an HTTP 500 error.
Exception semantics are embedded with `Except`: a detector is a function that
either returns its insights or raises, and sequencing is `Except`-bind. -/

/-- A detector as run by the engine: it may raise (modelled as `Except.error`
carrying the exception message). -/
def Detector : Type := List Row → Except String (List Insight)

/-- The engine's detector loop: `insights = []` followed by
`insights.extend(d(df))` for each detector `d`, where an uncaught exception
from `d` aborts the loop and propagates. -/
def runDetectors : List Detector → List Row → Except String (List Insight)
  | [], _ => .ok []
  | d :: ds, df =>
    match d df with
    | .error e => .error e
    | .ok is =>
      match runDetectors ds df with
      | .error e => .error e
      | .ok rest => .ok (is ++ rest)

/-- The `discover_all_insights` over an already-built table: empty table short
circuits to `[]`; otherwise the detectors run in sequence and the collected
insights are ranked and truncated.  A detector exception propagates. -/
def discover_all_insights (ds : List Detector) (df : List Row) :
    Except String (List Insight) :=
  if df.isEmpty then .ok [] else
    match runDetectors ds df with
    | .error e => .error e
    | .ok is => .ok (rankAndSelect is)

/-- The router endpoint `get_trading_insights`: returns the engine's list, or
catches any exception and answers with an HTTP 500 error. -/
def get_trading_insights (ds : List Detector) (df : List Row) :
    Except Nat (List Insight) :=
  match discover_all_insights ds df with
  | .ok is => .ok is
  | .error _ => .error 500

/-- A row used by the C2 counterexample (all fields concrete). -/
def rowC2 : Row := mkRow sampleTrade

/-- C2 counterexample: with a first detector producing one insight, a second
detector raising, and a third detector that would produce an insight, the
engine returns the raised error — the third detector's insight is lost and
the exception passes the engine boundary, contradicting the claim that a
failing detector is treated as producing zero insights.  The router then
answers HTTP 500, returning no insights at all. -/
theorem detector_error_aborts_engine_cex :
    discover_all_insights
        [fun _ => .ok [⟨"a", 1, 1⟩],
         fun _ => .error "boom",
         fun _ => .ok [⟨"b", 2, 1⟩]] [rowC2] = .error "boom" ∧
    get_trading_insights
        [fun _ => .ok [⟨"a", 1, 1⟩],
         fun _ => .error "boom",
         fun _ => .ok [⟨"b", 2, 1⟩]] [rowC2] = .error 500 := by
  constructor <;> rfl

/-- Helper for the amended C2: if every detector of a prefix succeeds and the
next detector raises, the whole loop raises that error. -/
lemma runDetectors_error_of_prefix_ok (pre : List Detector) (d : Detector)
    (post : List Detector) (df : List Row) (e : String) (l : List Insight)
    (hpre : runDetectors pre df = .ok l) (hd : d df = .error e) :
    runDetectors (pre ++ d :: post) df = .error e := by
  induction pre generalizing l with
  | nil => simp [runDetectors, hd]
  | cons d0 pre ih =>
    cases h0 : d0 df with
    | error e0 =>
      rw [runDetectors, h0] at hpre
      exact absurd hpre (by simp)
    | ok is0 =>
      rw [runDetectors, h0] at hpre
      cases hrest : runDetectors pre df with
      | error e0 =>
        rw [hrest] at hpre
        exact absurd hpre (by simp)
      | ok rest =>
        simp only [List.cons_append, runDetectors, h0, List.append_eq,
          ih rest hrest]

/-- C2 amended: one detector's internal error does abort the others — as soon
as a detector raises (all earlier ones having succeeded), the engine returns
that error instead of the surviving detectors' insights, and the router
converts it into an HTTP 500 response. -/
theorem detector_error_aborts_engine (pre : List Detector) (d : Detector)
    (post : List Detector) (df : List Row) (e : String) (l : List Insight)
    (hne : df ≠ []) (hpre : runDetectors pre df = .ok l)
    (hd : d df = .error e) :
    discover_all_insights (pre ++ d :: post) df = .error e ∧
    get_trading_insights (pre ++ d :: post) df = .error 500 := by
  have hrun := runDetectors_error_of_prefix_ok pre d post df e l hpre hd
  have hnem : ¬ df.isEmpty := by
    cases df with
    | nil => exact absurd rfl hne
    | cons a as => simp
  constructor
  · simp [discover_all_insights, hnem, hrun]
  · simp [get_trading_insights, discover_all_insights, hnem, hrun]

/-- Witness for the amended C2 at concrete detectors and a concrete table. -/
theorem detector_error_aborts_engine_witness :
    discover_all_insights
        [fun _ => .ok [⟨"a", 1, 1⟩], fun _ => .error "oops"] [rowC2] =
      .error "oops" ∧
    get_trading_insights
        [fun _ => .ok [⟨"a", 1, 1⟩], fun _ => .error "oops"] [rowC2] =
      .error 500 :=
  detector_error_aborts_engine [fun _ => .ok [⟨"a", 1, 1⟩]]
    (fun _ => .error "oops") [] [rowC2] "oops" [⟨"a", 1, 1⟩]
    (by simp) (by rfl) (by rfl)

/-- C1: the engine's final stage sorts the collected insights in descending
order of `confidence * |value|` — pairwise, every later returned insight has a
rank key no larger than any earlier one — the sort is a stable permutation of
the emitted list (insights of equal key stay in emission order), and the
returned list is the first 20 of that order, hence has at most 20 elements. -/
theorem rankAndSelect_sorts_and_truncates (l : List Insight) :
    (rankAndSelect l).length ≤ 20 ∧
    rankAndSelect l = (sortInsightsDesc l).take 20 ∧
    List.Pairwise keyGE (rankAndSelect l) ∧
    List.Pairwise keyGE (sortInsightsDesc l) ∧
    (sortInsightsDesc l).Perm l ∧
    ∀ q : ℚ, (sortInsightsDesc l).filter (fun y => decide (rankKey y = q)) =
      l.filter (fun y => decide (rankKey y = q)) := by
  refine ⟨?_, rfl, ?_, ?_, ?_, ?_⟩
  · simp [rankAndSelect]
  · exact List.Pairwise.sublist (List.take_sublist 20 _)
      (List.sorted_insertionSort keyGE l)
  · exact List.sorted_insertionSort keyGE l
  · exact List.perm_insertionSort keyGE l
  · exact fun q => filter_sortInsightsDesc l q

/-- C4: the table built from `N` trade records has exactly `N` rows, and in
every row `net_profit` is exactly `profit + commission + swap` while
`is_profitable` holds exactly when `net_profit` is positive. -/
theorem get_trades_dataframe_roundtrip (trades : List TradeRecord) :
    (get_trades_dataframe trades).length = trades.length ∧
    ∀ r ∈ get_trades_dataframe trades,
      r.net_profit = r.profit + r.commission + r.swap ∧
      (r.is_profitable = true ↔ 0 < r.net_profit) := by
  constructor
  · simp [get_trades_dataframe]
  · intro r hr
    rcases List.mem_map.mp hr with ⟨t, _, rfl⟩
    refine ⟨rfl, ?_⟩
    simp [mkRow, gt_iff_lt]

/-- Witness for C4 at a concrete one-record list. -/
theorem get_trades_dataframe_roundtrip_witness :
    (get_trades_dataframe [sampleTrade]).length = 1 ∧
    (mkRow sampleTrade).net_profit =
      (mkRow sampleTrade).profit + (mkRow sampleTrade).commission +
        (mkRow sampleTrade).swap ∧
    ((mkRow sampleTrade).is_profitable = true ↔ 0 < (mkRow sampleTrade).net_profit) := by
  refine ⟨(get_trades_dataframe_roundtrip [sampleTrade]).1, ?_, ?_⟩
  · exact ((get_trades_dataframe_roundtrip [sampleTrade]).2 (mkRow sampleTrade)
      (by simp [get_trades_dataframe])).1
  · exact ((get_trades_dataframe_roundtrip [sampleTrade]).2 (mkRow sampleTrade)
      (by simp [get_trades_dataframe])).2

/-! ### Streak detectors (C7, C10)

`_analyze_consecutive_losses` (lines 172-207) and `_analyze_winning_streaks`
(lines 778-813) sort the table chronologically and scan it with the same
loop shape: a matching trade extends the current streak, a non-matching trade
flushes a positive current streak into the list of completed streaks.  The
loss detector tracks the running maximum inside the loop and never flushes a
trailing streak after the loop; the win detector flushes the trailing streak
and takes the maximum of the resulting list. -/

/-- The loop state: current streak, completed streaks, running maximum
(the running maximum is only read by the loss detector). -/
structure StreakState where
  cur : Nat
  runs : List Nat
  maxS : Nat
deriving DecidableEq, Repr

/-- One iteration of the streak loop (lines 185-192 and 788-794): the flag
says whether the trade matches (is a loss, resp. a win). -/
def streakStep (s : StreakState) (flag : Bool) : StreakState :=
  match flag with
  | true => { cur := s.cur + 1, runs := s.runs, maxS := max s.maxS (s.cur + 1) }
  | false =>
    { cur := 0
      runs := s.runs ++ (if s.cur > 0 then [s.cur] else [])
      maxS := s.maxS }

/-- The whole loop, from the zero state. -/
def streakLoop (flags : List Bool) : StreakState :=
  flags.foldl streakStep ⟨0, [], 0⟩

/-- The streak list of `_analyze_consecutive_losses`: only streaks terminated
inside the loop; a streak still open when the loop ends is not flushed. -/
def lossRunsOf (flags : List Bool) : List Nat := (streakLoop flags).runs

/-- The `max_streak` variable of `_analyze_consecutive_losses`. -/
def lossMaxOf (flags : List Bool) : Nat := (streakLoop flags).maxS

/-- The streak list of `_analyze_winning_streaks`: the loop result plus the
flush of a positive trailing streak (lines 796-797). -/
def winRunsOf (flags : List Bool) : List Nat :=
  (streakLoop flags).runs ++
    (if (streakLoop flags).cur > 0 then [(streakLoop flags).cur] else [])

/-- Reference definition: the lengths of all maximal runs of `true` in a
flag list (the accumulator is the length of the run in progress), including
a run that reaches the end of the list. -/
def runLengthsFrom (c : Nat) : List Bool → List Nat
  | [] => if c > 0 then [c] else []
  | true :: rest => runLengthsFrom (c + 1) rest
  | false :: rest => (if c > 0 then [c] else []) ++ runLengthsFrom 0 rest

/-- Python's `max` over a list of streak lengths (the lists are nonempty
wherever the source takes a maximum). -/
def maxNat (l : List Nat) : Nat := l.foldr max 0

/-- The `statistics.mean` over a list of streak lengths. -/
def meanNat (l : List Nat) : ℚ := ((l.map (fun n => (n : ℚ))).sum) / l.length

/-- Chronological sort of the table: `df.sort_values(['open_time'])`, a
stable ascending sort. -/
def sortByOpenTime (df : List Row) : List Row :=
  List.insertionSort (fun a b => a.open_time ≤ b.open_time) df

/-- The `is_loss` column of `_analyze_consecutive_losses`. -/
def isLossRow (r : Row) : Bool := decide (r.net_profit < 0)

/-- The profit test of `_analyze_winning_streaks`. -/
def isWinRow (r : Row) : Bool := decide (r.net_profit > 0)

/-- The loss flags the loss detector scans, in chronological order. -/
def lossFlags (df : List Row) : List Bool := (sortByOpenTime df).map isLossRow

/-- The win flags the win detector scans, in chronological order. -/
def winFlags (df : List Row) : List Bool := (sortByOpenTime df).map isWinRow

/-- The `_analyze_consecutive_losses`: an insight only when at least one loss
streak was terminated inside the loop and the running maximum is at least 5;
`value` is the maximum streak. -/
def analyze_consecutive_losses (df : List Row) : List Insight :=
  let runs := lossRunsOf (lossFlags df)
  let mx := lossMaxOf (lossFlags df)
  if runs ≠ [] ∧ 5 ≤ mx then [⟨"risk_warning", (mx : ℚ), 9 / 10⟩] else []

/-- The `avg_streak` the loss detector reports (in its description), defined
exactly when the detector's streak list is nonempty. -/
def lossAvgStreak (df : List Row) : Option ℚ :=
  let runs := lossRunsOf (lossFlags df)
  if runs = [] then none else some (meanNat runs)

/-- The `_analyze_winning_streaks`: an insight when the streak list (with the
trailing streak flushed) is nonempty and its maximum is at least 8. -/
def analyze_winning_streaks (df : List Row) : List Insight :=
  let runs := winRunsOf (winFlags df)
  if runs ≠ [] ∧ 8 ≤ maxNat runs then
    [⟨"performance_strength", (maxNat runs : ℚ), 9 / 10⟩]
  else []

/-- The `avg_winning_streak` the win detector reports. -/
def winAvgStreak (df : List Row) : Option ℚ :=
  let runs := winRunsOf (winFlags df)
  if runs = [] then none else some (meanNat runs)

/-- The loop, continued from any state, computes the runs of the remaining
flags glued onto the state's current streak. -/
lemma streakLoop_runs_from (flags : List Bool) : ∀ s : StreakState,
    (flags.foldl streakStep s).runs ++
      (if (flags.foldl streakStep s).cur > 0
       then [(flags.foldl streakStep s).cur] else []) =
    s.runs ++ runLengthsFrom s.cur flags := by
  induction flags with
  | nil => intro s; rfl
  | cons b rest ih =>
    intro s
    have h := ih (streakStep s b)
    cases b with
    | true =>
      simpa [streakStep, runLengthsFrom, List.foldl_cons] using h
    | false =>
      simpa [streakStep, runLengthsFrom, List.foldl_cons, List.append_assoc]
        using h

/-- The win detector's streak list is exactly the list of all maximal
win-run lengths, the trailing run included. -/
lemma winRunsOf_eq_runLengths (flags : List Bool) :
    winRunsOf flags = runLengthsFrom 0 flags := by
  simpa [winRunsOf, streakLoop] using streakLoop_runs_from flags ⟨0, [], 0⟩

/-- Appending a terminating `false` makes the loss loop flush the trailing
run, recovering the win detector's streak list. -/
lemma winRunsOf_eq_lossRunsOf_append (flags : List Bool) :
    winRunsOf flags = lossRunsOf (flags ++ [false]) := by
  simp [winRunsOf, lossRunsOf, streakLoop, List.foldl_append, streakStep]

/-- The final current streak after processing `flags ++ [b]`. -/
lemma streakLoop_concat_cur (flags : List Bool) (b : Bool) :
    (streakLoop (flags ++ [b])).cur =
      if b then (streakLoop flags).cur + 1 else 0 := by
  cases b <;> simp [streakLoop, List.foldl_append, streakStep]

/-- The loss detector's streak list drops the trailing run exactly when the
flag list ends in `true`. -/
lemma lossRunsOf_eq (flags : List Bool) :
    lossRunsOf flags =
      if flags.getLast? = some true then (winRunsOf flags).dropLast
      else winRunsOf flags := by
  rcases List.eq_nil_or_concat flags with h | ⟨init, b, h⟩
  · subst h; rfl
  · subst h
    have hcur := streakLoop_concat_cur init b
    cases b with
    | true =>
      simp at hcur
      have hpos : (streakLoop (init ++ [true])).cur > 0 := by omega
      have hw : winRunsOf (init ++ [true]) =
          lossRunsOf (init ++ [true]) ++ [(streakLoop (init ++ [true])).cur] := by
        unfold winRunsOf lossRunsOf
        rw [if_pos hpos]
      simp [hw, List.getLast?_concat]
    | false =>
      have hz : ¬ (streakLoop (init ++ [false])).cur > 0 := by
        simp at hcur
        omega
      have hw : winRunsOf (init ++ [false]) = lossRunsOf (init ++ [false]) := by
        unfold winRunsOf lossRunsOf
        rw [if_neg hz]
        simp
      simp [hw, List.getLast?_concat]

/-- The `maxNat` over an appended list. -/
lemma maxNat_append (l₁ l₂ : List Nat) :
    maxNat (l₁ ++ l₂) = max (maxNat l₁) (maxNat l₂) := by
  induction l₁ with
  | nil => simp [maxNat]
  | cons a l ih => simp [maxNat, List.foldr] at ih ⊢; omega

/-- Loop invariant: the running maximum is the maximum of the completed
streaks and the current streak. -/
lemma streakLoop_max_invariant (flags : List Bool) : ∀ s : StreakState,
    s.maxS = max (maxNat s.runs) s.cur →
    (flags.foldl streakStep s).maxS =
      max (maxNat (flags.foldl streakStep s).runs) (flags.foldl streakStep s).cur := by
  induction flags with
  | nil => intro s h; exact h
  | cons b rest ih =>
    intro s h
    cases b with
    | true =>
      apply ih
      simp only [streakStep]
      omega
    | false =>
      apply ih
      simp only [streakStep]
      by_cases hc : s.cur > 0
      · rw [if_pos hc, maxNat_append]
        have h1 : maxNat [s.cur] = s.cur := by simp [maxNat]
        omega
      · rw [if_neg hc]
        have h1 : maxNat (s.runs ++ []) = maxNat s.runs := by simp
        omega

/-- The loss detector's `max_streak` equals the maximum over all runs, the
trailing one included. -/
lemma lossMaxOf_eq (flags : List Bool) :
    lossMaxOf flags = maxNat (winRunsOf flags) := by
  have hinv := streakLoop_max_invariant flags ⟨0, [], 0⟩ (by simp [maxNat])
  have : maxNat (winRunsOf flags) =
      max (maxNat (streakLoop flags).runs) (streakLoop flags).cur := by
    unfold winRunsOf
    by_cases hc : (streakLoop flags).cur > 0
    · rw [if_pos hc, maxNat_append]
      have h1 : maxNat [(streakLoop flags).cur] = (streakLoop flags).cur := by
        simp [maxNat]
      omega
    · rw [if_neg hc]
      have h1 : (streakLoop flags).cur = 0 := by omega
      simp [h1]
  rw [this]
  exact hinv

/-- C7 amended: the two streak detectors share the same loop, but the loss
detector never flushes a streak that reaches the end of the table while the
win detector does.  Concretely: the win detector's streak list is the full
list of maximal run lengths (equivalently, what the loss loop produces once a
terminating non-loss is appended); the loss detector's list drops the
trailing run exactly when the table ends in a loss; the loss detector's
maximum still covers all runs; and each detector fires iff its streak list is
nonempty and the all-runs maximum reaches its threshold (5 for losses — with
the extra nonemptiness requirement that some loss run was terminated — and 8
for wins). -/
theorem streak_detectors_trailing_run (flags : List Bool) (df : List Row) :
    winRunsOf flags = runLengthsFrom 0 flags ∧
    winRunsOf flags = lossRunsOf (flags ++ [false]) ∧
    lossRunsOf flags =
      (if flags.getLast? = some true then (winRunsOf flags).dropLast
       else winRunsOf flags) ∧
    lossMaxOf flags = maxNat (winRunsOf flags) ∧
    (analyze_consecutive_losses df ≠ [] ↔
      lossRunsOf (lossFlags df) ≠ [] ∧
        5 ≤ maxNat (winRunsOf (lossFlags df))) ∧
    (analyze_winning_streaks df ≠ [] ↔
      winRunsOf (winFlags df) ≠ [] ∧ 8 ≤ maxNat (winRunsOf (winFlags df))) := by
  refine ⟨winRunsOf_eq_runLengths flags, winRunsOf_eq_lossRunsOf_append flags,
    lossRunsOf_eq flags, lossMaxOf_eq flags, ?_, ?_⟩
  · rw [analyze_consecutive_losses, ← lossMaxOf_eq]
    by_cases h : lossRunsOf (lossFlags df) ≠ [] ∧ 5 ≤ lossMaxOf (lossFlags df) <;>
      simp [h]
  · rw [analyze_winning_streaks]
    by_cases h : winRunsOf (winFlags df) ≠ [] ∧ 8 ≤ maxNat (winRunsOf (winFlags df)) <;>
      simp [h]

/-- Row used by concrete streak tables: trade `i` opened at minute `i` with
net profit `p`. -/
def streakRow (i : Nat) (p : ℚ) : Row :=
  mkRow { sampleTrade with id := i, profit := p, commission := 0, swap := 0,
                           open_time := i, close_time := some (i + 60) }

/-- Five consecutive losing trades. -/
def allLossTable : List Row :=
  [streakRow 0 (-1), streakRow 1 (-1), streakRow 2 (-1), streakRow 3 (-1),
   streakRow 4 (-1)]

/-- A loss, a win, then five consecutive losses ending at the last trade. -/
def lossTailTable : List Row :=
  [streakRow 0 (-1), streakRow 1 1, streakRow 2 (-1), streakRow 3 (-1),
   streakRow 4 (-1), streakRow 5 (-1), streakRow 6 (-1)]

/-- A win, a loss, then eight consecutive wins ending at the last trade. -/
def winTailTable : List Row :=
  [streakRow 0 1, streakRow 1 (-1), streakRow 2 1, streakRow 3 1,
   streakRow 4 1, streakRow 5 1, streakRow 6 1, streakRow 7 1,
   streakRow 8 1, streakRow 9 1]

/-- C7 counterexample: the two streak detectors are not symmetric over runs
ending at the last trade.  Five straight losses have a longest loss run of 5
yet the loss detector emits nothing (the trailing run is never flushed into
its run list); the mirrored win table with a trailing run of 8 does make the
win detector fire.  Moreover, for a table whose final five trades are losses
the loss detector's reported average streak is 1 although the mean over all
loss runs in the table is 3, while the win detector's reported average on
the mirrored table equals the all-runs mean 9/2. -/
theorem streak_detectors_not_symmetric_cex :
    lossMaxOf (lossFlags allLossTable) = 5 ∧
    analyze_consecutive_losses allLossTable = [] ∧
    analyze_winning_streaks winTailTable =
      [⟨"performance_strength", 8, 9 / 10⟩] ∧
    lossAvgStreak lossTailTable = some 1 ∧
    meanNat (runLengthsFrom 0 (lossFlags lossTailTable)) = 3 ∧
    winAvgStreak winTailTable = some (9 / 2) ∧
    meanNat (runLengthsFrom 0 (winFlags winTailTable)) = 9 / 2 := by
  have h1 : lossFlags allLossTable = [true, true, true, true, true] := by
    norm_num [lossFlags, sortByOpenTime, List.insertionSort, List.orderedInsert,
      isLossRow, allLossTable, streakRow, mkRow, sampleTrade]
  have h2 : lossFlags lossTailTable =
      [true, false, true, true, true, true, true] := by
    norm_num [lossFlags, sortByOpenTime, List.insertionSort, List.orderedInsert,
      isLossRow, lossTailTable, streakRow, mkRow, sampleTrade]
  have h3 : winFlags winTailTable =
      [true, false, true, true, true, true, true, true, true, true] := by
    norm_num [winFlags, sortByOpenTime, List.insertionSort, List.orderedInsert,
      isWinRow, winTailTable, streakRow, mkRow, sampleTrade]
  refine ⟨?_, ?_, ?_, ?_, ?_, ?_, ?_⟩
  · rw [h1]; decide
  · simp only [analyze_consecutive_losses, h1]
    decide
  · simp only [analyze_winning_streaks, h3]
    norm_num [winRunsOf, streakLoop, streakStep, maxNat]
    simp
  · simp only [lossAvgStreak, h2]
    norm_num [lossRunsOf, streakLoop, streakStep, meanNat]
  · rw [h2]; norm_num [runLengthsFrom, meanNat]
  · simp only [winAvgStreak, h3]
    norm_num [winRunsOf, streakLoop, streakStep, meanNat]
    simp
  · rw [h3]; norm_num [runLengthsFrom, meanNat]

/-! ### Take-profit classification (C9)

`_analyze_take_profit_patterns` (lines 490-514) keeps the trades with a
take-profit set and splits them by `abs(close_price - take_profit)` being
strictly below (hit) or strictly above (manual close) the 0.001 tolerance.
A missing `close_price` makes the pandas comparison `NaN`, which is false in
both filters; the embedding matches that with a `match` on the options. -/

/-- Mean of a list of rationals (`Series.mean` on a nonempty series). -/
def meanQ (l : List ℚ) : ℚ := l.sum / l.length

/-- The `df[df['take_profit'].notna()]`. -/
def trades_with_tp (df : List Row) : List Row :=
  df.filter (fun r => r.take_profit.isSome)

/-- The `abs(close_price - take_profit) < 0.001` (false on a missing value). -/
def tpHitTest (r : Row) : Bool :=
  match r.close_price, r.take_profit with
  | some c, some tp => decide (|c - tp| < 1 / 1000)
  | _, _ => false

/-- The `abs(close_price - take_profit) > 0.001` (false on a missing value). -/
def manualCloseTest (r : Row) : Bool :=
  match r.close_price, r.take_profit with
  | some c, some tp => decide (|c - tp| > 1 / 1000)
  | _, _ => false

/-- The `tp_hit_trades`. -/
def tp_hit_trades (df : List Row) : List Row :=
  (trades_with_tp df).filter tpHitTest

/-- The `manual_close_trades`. -/
def manual_close_trades (df : List Row) : List Row :=
  (trades_with_tp df).filter manualCloseTest

/-- The `_analyze_take_profit_patterns`: when both groups are nonempty and the
manual-close average profit exceeds 1.2 times the take-profit-hit average,
emit the exit-strategy insight. -/
def analyze_take_profit_patterns (df : List Row) : List Insight :=
  if trades_with_tp df ≠ [] then
    let hits := tp_hit_trades df
    let manuals := manual_close_trades df
    if hits ≠ [] ∧ manuals ≠ [] then
      let tp_hit_avg := meanQ (hits.map Row.net_profit)
      let manual_avg := meanQ (manuals.map Row.net_profit)
      if manual_avg > tp_hit_avg * (12 / 10) then
        [⟨"exit_strategy", manual_avg - tp_hit_avg, 3 / 4⟩]
      else []
    else []
  else []

/-- C9: a trade whose close-price distance from its take-profit is exactly
0.001 is counted as neither a take-profit hit nor a manual close, although it
belongs to the trades-with-take-profit pool — so the two groups do not
partition that pool; the two groups are nevertheless disjoint. -/
theorem take_profit_boundary (df : List Row) (r : Row) (c tp : ℚ)
    (hr : r ∈ df) (hc : r.close_price = some c) (htp : r.take_profit = some tp)
    (heq : |c - tp| = 1 / 1000) :
    r ∈ trades_with_tp df ∧
    r ∉ tp_hit_trades df ∧
    r ∉ manual_close_trades df ∧
    ∀ x : Row, ¬ (tpHitTest x = true ∧ manualCloseTest x = true) := by
  refine ⟨?_, ?_, ?_, ?_⟩
  · exact List.mem_filter.mpr ⟨hr, by simp [htp]⟩
  · intro hmem
    have h := (List.mem_filter.mp hmem).2
    rw [tpHitTest, hc, htp] at h
    simp only [decide_eq_true_eq] at h
    rw [heq] at h
    exact lt_irrefl _ h
  · intro hmem
    have h := (List.mem_filter.mp hmem).2
    rw [manualCloseTest, hc, htp] at h
    simp only [decide_eq_true_eq] at h
    rw [heq] at h
    exact lt_irrefl _ h
  · intro x ⟨h1, h2⟩
    rw [tpHitTest] at h1
    rw [manualCloseTest] at h2
    cases hcx : x.close_price with
    | none => rw [hcx] at h1; cases htx : x.take_profit <;> simp [htx] at h1
    | some cx =>
      cases htx : x.take_profit with
      | none => rw [hcx, htx] at h1; simp at h1
      | some tpx =>
        rw [hcx, htx] at h1 h2
        simp only [decide_eq_true_eq] at h1 h2
        exact absurd h2 (not_lt_of_lt h1)

/-- The boundary trade: take-profit 1, closed at 1.001. -/
def boundaryRow : Row :=
  mkRow { sampleTrade with close_price := some (1 + 1 / 1000),
                           take_profit := some 1 }

/-- Witness for C9 at the boundary trade. -/
theorem take_profit_boundary_witness :
    boundaryRow ∈ trades_with_tp [boundaryRow] ∧
    boundaryRow ∉ tp_hit_trades [boundaryRow] ∧
    boundaryRow ∉ manual_close_trades [boundaryRow] ∧
    ∀ x : Row, ¬ (tpHitTest x = true ∧ manualCloseTest x = true) :=
  take_profit_boundary [boundaryRow] boundaryRow (1 + 1 / 1000) 1
    (by simp) (by rfl) (by rfl) (by norm_num)

/-! ### Zero-net-profit trades (C10)

`is_profitable` is `net_profit > 0` (builder line 50), losses are
`net_profit < 0` everywhere (`_analyze_consecutive_losses` line 178,
`_analyze_profit_taking_behavior` lines 601-602): a trade with zero net
profit matches neither side. -/

/-- The `profitable_trades = df[df['net_profit'] > 0]` (line 601). -/
def profitable_trades (df : List Row) : List Row :=
  df.filter (fun r => decide (r.net_profit > 0))

/-- The `losing_trades = df[df['net_profit'] < 0]` (line 602). -/
def losing_trades (df : List Row) : List Row :=
  df.filter (fun r => decide (r.net_profit < 0))

/-- The `_analyze_profit_taking_behavior` (lines 597-618): flag loss aversion
when the average absolute loss exceeds twice the average win. -/
def analyze_profit_taking_behavior (df : List Row) : List Insight :=
  if profitable_trades df ≠ [] ∧ losing_trades df ≠ [] then
    let avg_win := meanQ ((profitable_trades df).map Row.net_profit)
    let avg_loss := |meanQ ((losing_trades df).map Row.net_profit)|
    if avg_loss > avg_win * 2 then
      [⟨"behavioral_pattern", avg_loss - avg_win, 9 / 10⟩]
    else []
  else []

/-- C10: a trade with zero net profit is profitable nowhere and a loss
nowhere — the builder marks it not profitable, both streak scans treat it as
a non-matching trade that resets the current streak to zero, and it is
excluded from both sides of the loss-aversion comparison. -/
theorem zero_net_profit_neutral (t : TradeRecord) (df : List Row) (r : Row)
    (s : StreakState) (ht : t.profit + t.commission + t.swap = 0)
    (hr : r.net_profit = 0) :
    (mkRow t).is_profitable = false ∧
    isLossRow r = false ∧
    isWinRow r = false ∧
    (streakStep s (isLossRow r)).cur = 0 ∧
    (streakStep s (isWinRow r)).cur = 0 ∧
    r ∉ profitable_trades df ∧
    r ∉ losing_trades df := by
  have hl : isLossRow r = false := by simp [isLossRow, hr]
  have hw : isWinRow r = false := by simp [isWinRow, hr]
  refine ⟨by simp [mkRow, ht], hl, hw, ?_, ?_, ?_, ?_⟩
  · rw [hl]; rfl
  · rw [hw]; rfl
  · intro hmem
    have h := (List.mem_filter.mp hmem).2
    simp [hr] at h
  · intro hmem
    have h := (List.mem_filter.mp hmem).2
    simp [hr] at h

/-- A trade whose profit, commission and swap cancel exactly. -/
def zeroTrade : TradeRecord :=
  { sampleTrade with profit := 3, commission := -1, swap := -2 }

/-- Witness for C10 at a concrete zero-net trade. -/
theorem zero_net_profit_neutral_witness :
    (mkRow zeroTrade).is_profitable = false ∧
    isLossRow (mkRow zeroTrade) = false ∧
    isWinRow (mkRow zeroTrade) = false ∧
    (streakStep ⟨2, [3], 3⟩ (isLossRow (mkRow zeroTrade))).cur = 0 ∧
    (streakStep ⟨2, [3], 3⟩ (isWinRow (mkRow zeroTrade))).cur = 0 ∧
    mkRow zeroTrade ∉ profitable_trades [mkRow zeroTrade] ∧
    mkRow zeroTrade ∉ losing_trades [mkRow zeroTrade] :=
  zero_net_profit_neutral zeroTrade [mkRow zeroTrade] (mkRow zeroTrade)
    ⟨2, [3], 3⟩ (by norm_num [zeroTrade, sampleTrade])
    (by norm_num [mkRow, zeroTrade, sampleTrade])

/-! ### Trading sessions (C8)

`_analyze_trading_sessions` (lines 128-170): six fixed, overlapping hour
tables; for each session with at least 5 trades the detector emits a
`session_excellence` insight when `profit > 200 or win_rate > 0.65`, and
otherwise (`elif`) a `session_warning` insight when
`profit < -200 or win_rate < 0.35`. -/

/-- The session hour tables (lines 133-140), in dict insertion order.
`Asian` is `range(21,24) + range(0,8)`, `European` is `range(7,16)`,
`US` is `range(13,22)`, the Asian-European overlap is `range(7,8)`, the
European-US overlap is `range(13,16)` and the dead zone is `range(16,21)`. -/
def sessionList : List (String × List Nat) :=
  [("Asian", [21, 22, 23, 0, 1, 2, 3, 4, 5, 6, 7]),
   ("European", [7, 8, 9, 10, 11, 12, 13, 14, 15]),
   ("US", [13, 14, 15, 16, 17, 18, 19, 20, 21]),
   ("Asian_European_Overlap", [7]),
   ("European_US_Overlap", [13, 14, 15]),
   ("Dead_Zone", [16, 17, 18, 19, 20])]

/-- The `session_df = df[df['hour_opened'].isin(session_info['hours'])]`. -/
def sessionTrades (df : List Row) (hours : List Nat) : List Row :=
  df.filter (fun r => hours.contains r.hour_opened)

/-- The session's trade count. -/
def sessionCount (df : List Row) (hours : List Nat) : Nat :=
  (sessionTrades df hours).length

/-- The session's total net profit. -/
def sessionProfit (df : List Row) (hours : List Nat) : ℚ :=
  ((sessionTrades df hours).map Row.net_profit).sum

/-- The session's win rate, `session_df['is_profitable'].mean()`. -/
def sessionWinRate (df : List Row) (hours : List Nat) : ℚ :=
  meanQ ((sessionTrades df hours).map
    (fun r => if r.is_profitable then (1 : ℚ) else 0))

/-- The per-session body of `_analyze_trading_sessions`. -/
def sessionInsightsFor (df : List Row) (hours : List Nat) : List Insight :=
  if 5 ≤ sessionCount df hours then
    if sessionProfit df hours > 200 ∨ sessionWinRate df hours > 13 / 20 then
      [⟨"session_excellence", sessionProfit df hours,
        min (17 / 20) ((sessionCount df hours : ℚ) / 15)⟩]
    else if sessionProfit df hours < -200 ∨ sessionWinRate df hours < 7 / 20 then
      [⟨"session_warning", sessionProfit df hours,
        min (4 / 5) ((sessionCount df hours : ℚ) / 15)⟩]
    else []
  else []

/-- The `_analyze_trading_sessions`: the six sessions scanned in order. -/
def analyze_trading_sessions (df : List Row) : List Insight :=
  sessionList.flatMap (fun s => sessionInsightsFor df s.2)

/-- C8: per session, the detector emits at most one insight; a session with
fewer than 5 trades emits nothing; an excellence insight is emitted exactly
when the session has at least 5 trades and profit exceeds $200 or the win
rate exceeds 65%; a warning is emitted exactly when the session has at least
5 trades, the excellence condition fails, and profit is below -$200 or the
win rate is below 35% — hence never both for one session. -/
theorem session_detector_rules (df : List Row) (hours : List Nat) :
    (sessionInsightsFor df hours).length ≤ 1 ∧
    (sessionCount df hours < 5 → sessionInsightsFor df hours = []) ∧
    ((∃ i ∈ sessionInsightsFor df hours, i.type = "session_excellence") ↔
      5 ≤ sessionCount df hours ∧
        (200 < sessionProfit df hours ∨ 13 / 20 < sessionWinRate df hours)) ∧
    ((∃ i ∈ sessionInsightsFor df hours, i.type = "session_warning") ↔
      5 ≤ sessionCount df hours ∧
        ¬ (200 < sessionProfit df hours ∨ 13 / 20 < sessionWinRate df hours) ∧
        (sessionProfit df hours < -200 ∨ sessionWinRate df hours < 7 / 20)) ∧
    ¬ ((∃ i ∈ sessionInsightsFor df hours, i.type = "session_excellence") ∧
       (∃ i ∈ sessionInsightsFor df hours, i.type = "session_warning")) := by
  unfold sessionInsightsFor
  by_cases h5 : 5 ≤ sessionCount df hours
  · by_cases hexc : sessionProfit df hours > 200 ∨ sessionWinRate df hours > 13 / 20
    · simp [h5, hexc]
    · by_cases hwarn : sessionProfit df hours < -200 ∨ sessionWinRate df hours < 7 / 20
      · simp [h5, hexc, hwarn]
      · simp [h5, hexc, hwarn]
  · have h5n : sessionCount df hours < 5 := by omega
    simp [if_neg h5, h5n]

/-- A row opened at hour `h` with net profit `p`. -/
def hourRow (i h : Nat) (p : ℚ) : Row :=
  mkRow { sampleTrade with id := i, profit := p, commission := 0, swap := 0,
                           open_time := h * 60 + i }

/-- Five profitable trades in the Asian-European overlap hour 7. -/
def overlapTable : List Row :=
  [hourRow 0 7 10, hourRow 1 7 10, hourRow 2 7 10, hourRow 3 7 10,
   hourRow 4 7 10]

/-- Witness for C8: on a concrete session with five profitable hour-7 trades
the excellence rule fires (win rate 1 > 65%), and a four-trade session emits
nothing by the small-sample gate. -/
theorem session_detector_rules_witness :
    (∃ i ∈ sessionInsightsFor overlapTable [7], i.type = "session_excellence") ∧
    sessionInsightsFor (overlapTable.take 4) [7] = [] := by
  constructor
  · apply (session_detector_rules overlapTable [7]).2.2.1.mpr
    constructor
    · norm_num [sessionCount, sessionTrades, overlapTable, hourRow, mkRow,
        sampleTrade, hourOfTime]
    · right
      norm_num [sessionWinRate, sessionTrades, overlapTable, hourRow, mkRow,
        sampleTrade, hourOfTime, meanQ]
  · apply (session_detector_rules (overlapTable.take 4) [7]).2.1
    norm_num [sessionCount, sessionTrades, overlapTable, hourRow, mkRow,
      sampleTrade, hourOfTime]

/-! ### Time patterns: golden and danger hours (C5)

`_analyze_time_patterns` (lines 74-126): group by `hour_opened` (pandas
groupby sorts the keys ascending), keep hours with at least 3 trades, take
the three best hours by total profit (`nlargest`, stable), merge numerically
consecutive hours with `_find_consecutive_periods` and emit one golden-hours
insight per group of at least two consecutive hours; separately flag the
worst hour with at least 5 trades when it lost more than $100. -/

/-- The groupby keys: distinct `hour_opened` values in ascending order. -/
def hourKeys (df : List Row) : List Nat :=
  List.insertionSort (· ≤ ·) (df.map Row.hour_opened).dedup

/-- The trades of one hour group. -/
def tradesAtHour (df : List Row) (h : Nat) : List Row :=
  df.filter (fun r => r.hour_opened == h)

/-- One row of `hourly_stats` (the aggregates the detector reads). -/
structure HourStats where
  hour : Nat
  total_profit : ℚ
  trade_count : Nat
  win_rate : ℚ
deriving DecidableEq, Repr

/-- The aggregates of one hour group. -/
def hourStatsOf (df : List Row) (h : Nat) : HourStats :=
  { hour := h
    total_profit := ((tradesAtHour df h).map Row.net_profit).sum
    trade_count := (tradesAtHour df h).length
    win_rate := meanQ ((tradesAtHour df h).map
      (fun r => if r.is_profitable then (1 : ℚ) else 0)) }

/-- The `hourly_stats` after the `trade_count >= 3` significance filter. -/
def qualifyingHourStats (df : List Row) : List HourStats :=
  ((hourKeys df).map (hourStatsOf df)).filter (fun s => decide (3 ≤ s.trade_count))

/-- The `nlargest(3, 'total_profit')`: stable descending sort by total profit,
first three entries. -/
def top3HourStats (df : List Row) : List HourStats :=
  (List.insertionSort (fun a b : HourStats => b.total_profit ≤ a.total_profit)
    (qualifyingHourStats df)).take 3

/-- The `best_hours.index.tolist()`. -/
def best_hours (df : List Row) : List Nat :=
  (top3HourStats df).map HourStats.hour

/-- The grouping loop of `_find_consecutive_periods` (lines 334-345) on the
sorted hour list: maximal blocks of numerically consecutive values. -/
def consecGroups : List Nat → List (List Nat)
  | [] => []
  | [x] => [[x]]
  | x :: y :: rest =>
    match consecGroups (y :: rest) with
    | g :: gs => if y = x + 1 then (x :: g) :: gs else [x] :: g :: gs
    | [] => [[x]]

/-- The `_find_consecutive_periods`: sort, group consecutive values, keep the
groups with at least two hours. -/
def find_consecutive_periods (hours : List Nat) : List (List Nat) :=
  (consecGroups (List.insertionSort (· ≤ ·) hours)).filter
    (fun g => decide (2 ≤ g.length))

/-- The `hourly_stats.loc[period, 'total_profit'].sum()`. -/
def periodProfit (df : List Row) (period : List Nat) : ℚ :=
  (period.map (fun h => (hourStatsOf df h).total_profit)).sum

/-- The `hourly_stats.loc[period, 'trade_count'].sum()`. -/
def periodTradeCount (df : List Row) (period : List Nat) : Nat :=
  (period.map (fun h => (hourStatsOf df h).trade_count)).sum

/-- The golden-hours insights (lines 87-108); the source re-checks the
two-hour bound inside its loop, mirrored by the `filterMap` guard. -/
def goldenHourInsights (df : List Row) : List Insight :=
  if qualifyingHourStats df ≠ [] then
    (find_consecutive_periods (best_hours df)).filterMap (fun period =>
      if 2 ≤ period.length then
        some ⟨"golden_hours", periodProfit df period,
          min (9 / 10) ((periodTradeCount df period : ℚ) / 20)⟩
      else none)
  else []

/-- The `trade_count >= 5` filter of the danger-hour branch (line 111). -/
def highActivityStats (df : List Row) : List HourStats :=
  (qualifyingHourStats df).filter (fun s => decide (5 ≤ s.trade_count))

/-- The `idxmin` over total profit: the first entry attaining the minimum
(`None` on an empty frame, in which case the branch is skipped). -/
def idxminProfit : List HourStats → Option HourStats
  | [] => none
  | s :: rest =>
    match idxminProfit rest with
    | none => some s
    | some m => if s.total_profit ≤ m.total_profit then some s else some m

/-- The danger-hour insight (lines 110-124). -/
def dangerHourInsights (df : List Row) : List Insight :=
  if qualifyingHourStats df ≠ [] then
    match idxminProfit (highActivityStats df) with
    | none => []
    | some w =>
      if w.total_profit < -100 then [⟨"danger_hour", w.total_profit, 17 / 20⟩]
      else []
  else []

/-- The `_analyze_time_patterns`: golden windows first, then the danger hour. -/
def analyze_time_patterns (df : List Row) : List Insight :=
  goldenHourInsights df ++ dangerHourInsights df

/-- The head group of `consecGroups` starts with the head of the list. -/
lemma consecGroups_head (a : Nat) (l : List Nat) :
    ∃ t gs, consecGroups (a :: l) = (a :: t) :: gs := by
  induction l generalizing a with
  | nil => exact ⟨[], [], rfl⟩
  | cons b rest ih =>
    rcases ih b with ⟨t, gs, hb⟩
    by_cases hy : b = a + 1
    · refine ⟨b :: t, gs, ?_⟩
      rw [consecGroups, hb]
      show (if b = a + 1 then (a :: b :: t) :: gs else [a] :: (b :: t) :: gs) =
        (a :: b :: t) :: gs
      rw [if_pos hy]
    · refine ⟨[], (b :: t) :: gs, ?_⟩
      rw [consecGroups, hb]
      show (if b = a + 1 then (a :: b :: t) :: gs else [a] :: (b :: t) :: gs) =
        ([a] :: (b :: t) :: gs)
      rw [if_neg hy]

/-- Every group produced by `consecGroups` is a nonempty chain of
consecutive values drawn from the input list. -/
lemma consecGroups_spec (l : List Nat) :
    ∀ g ∈ consecGroups l,
      g ≠ [] ∧ List.Chain' (fun a b => b = a + 1) g ∧ ∀ x ∈ g, x ∈ l := by
  match l with
  | [] => intro g hg; simp [consecGroups] at hg
  | [x] =>
    intro g hg
    simp [consecGroups] at hg
    subst hg
    simp
  | x :: y :: rest =>
    intro g hg
    have ih := consecGroups_spec (y :: rest)
    rcases consecGroups_head y rest with ⟨t, gs, hh⟩
    rw [consecGroups, hh] at hg
    replace hg : g ∈ (if y = x + 1 then (x :: y :: t) :: gs
        else [x] :: (y :: t) :: gs) := hg
    by_cases hy : y = x + 1
    · rw [if_pos hy] at hg
      rcases List.mem_cons.mp hg with hgf | hgr
      · subst hgf
        have hspec := ih (y :: t) (by rw [hh]; exact List.mem_cons_self _ _)
        refine ⟨by simp, ?_, ?_⟩
        · exact List.chain'_cons.mpr ⟨hy, hspec.2.1⟩
        · intro z hz
          rcases List.mem_cons.mp hz with hzx | hzt
          · simp [hzx]
          · exact List.mem_cons_of_mem x (hspec.2.2 z hzt)
      · have hspec := ih g (by rw [hh]; exact List.mem_cons_of_mem _ hgr)
        exact ⟨hspec.1, hspec.2.1,
          fun z hz => List.mem_cons_of_mem x (hspec.2.2 z hz)⟩
    · rw [if_neg hy] at hg
      rcases List.mem_cons.mp hg with hgf | hgr
      · subst hgf
        exact ⟨by simp, by simp, by intro z hz; simp at hz; simp [hz]⟩
      · have hspec := ih g (by rw [hh]; exact hgr)
        exact ⟨hspec.1, hspec.2.1,
          fun z hz => List.mem_cons_of_mem x (hspec.2.2 z hz)⟩

/-- A nodup list whose elements are all equal has at most one element. -/
lemma length_le_one_of_nodup_const {l : List Nat} {h : Nat}
    (hn : l.Nodup) (hall : ∀ x ∈ l, x = h) : l.length ≤ 1 := by
  match l with
  | [] => simp
  | [x] => simp
  | x :: y :: t =>
    have hx : x = h := hall x (by simp)
    have hy : y = h := hall y (by simp)
    have : x ∉ y :: t := (List.nodup_cons.mp hn).1
    exact absurd (by rw [hx, hy]; exact List.mem_cons_self _ _) this

/-- The `find_consecutive_periods` of a list with at most one element is empty. -/
lemma find_consecutive_periods_short (l : List Nat) (hl : l.length ≤ 1) :
    find_consecutive_periods l = [] := by
  match l with
  | [] => rfl
  | [x] => rfl
  | x :: y :: t => simp at hl

/-- C5: every period the merge step produces has at least two numerically
consecutive hours, all drawn from the candidate hours; every golden-hours
insight comes from such a period among the top-3 qualifying hours with
confidence `min(0.9, trades/20)` and value the period's total profit; and a
table whose trades all share one hour of day yields no golden-hours
insight. -/
theorem golden_hours_rules (df : List Row) (hours : List Nat) (h : Nat) :
    (∀ g ∈ find_consecutive_periods hours,
      2 ≤ g.length ∧ List.Chain' (fun a b => b = a + 1) g ∧
        ∀ x ∈ g, x ∈ hours) ∧
    (∀ i ∈ goldenHourInsights df,
      i.type = "golden_hours" ∧
      ∃ p ∈ find_consecutive_periods (best_hours df),
        2 ≤ p.length ∧ i.value = periodProfit df p ∧
        i.confidence = min (9 / 10) ((periodTradeCount df p : ℚ) / 20)) ∧
    ((∀ r ∈ df, r.hour_opened = h) → goldenHourInsights df = []) := by
  refine ⟨?_, ?_, ?_⟩
  · intro g hg
    have hmem := List.mem_filter.mp hg
    have hspec := consecGroups_spec _ g hmem.1
    refine ⟨by simpa using hmem.2, hspec.2.1, ?_⟩
    intro x hx
    have := hspec.2.2 x hx
    exact ((List.perm_insertionSort (· ≤ ·) hours).mem_iff).mp this
  · intro i hi
    rw [goldenHourInsights] at hi
    by_cases hq : qualifyingHourStats df ≠ []
    · rw [if_pos hq] at hi
      rcases List.mem_filterMap.mp hi with ⟨p, hp, hfp⟩
      by_cases hlen : 2 ≤ p.length
      · rw [if_pos hlen] at hfp
        cases hfp
        exact ⟨rfl, p, hp, hlen, rfl, rfl⟩
      · rw [if_neg hlen] at hfp
        cases hfp
    · rw [if_neg hq] at hi
      simp at hi
  · intro hall
    rw [goldenHourInsights]
    by_cases hq : qualifyingHourStats df ≠ []
    · rw [if_pos hq]
      have hkeys : ∀ x ∈ hourKeys df, x = h := by
        intro x hx
        have hx2 : x ∈ (df.map Row.hour_opened).dedup :=
          ((List.perm_insertionSort (· ≤ ·) _).mem_iff).mp hx
        have hx3 : x ∈ df.map Row.hour_opened := List.mem_dedup.mp hx2
        rcases List.mem_map.mp hx3 with ⟨r, hr, hrx⟩
        rw [← hrx]
        exact hall r hr
      have hnodup : (hourKeys df).Nodup :=
        ((List.perm_insertionSort (· ≤ ·) _).nodup_iff).mpr (List.nodup_dedup _)
      have hklen : (hourKeys df).length ≤ 1 :=
        length_le_one_of_nodup_const hnodup hkeys
      have hqlen : (qualifyingHourStats df).length ≤ 1 := by
        have h1 := List.length_filter_le
          (fun s => decide (3 ≤ s.trade_count)) ((hourKeys df).map (hourStatsOf df))
        have h2 : ((hourKeys df).map (hourStatsOf df)).length =
            (hourKeys df).length := List.length_map _ _
        unfold qualifyingHourStats
        omega
      have hblen : (best_hours df).length ≤ 1 := by
        unfold best_hours top3HourStats
        have h1 := List.length_take_le 3
          (List.insertionSort (fun a b : HourStats => b.total_profit ≤ a.total_profit)
            (qualifyingHourStats df))
        have h2 := (List.perm_insertionSort
          (fun a b : HourStats => b.total_profit ≤ a.total_profit)
          (qualifyingHourStats df)).length_eq
        rw [List.length_map]
        have h3 := List.length_take 3
          (List.insertionSort (fun a b : HourStats => b.total_profit ≤ a.total_profit)
            (qualifyingHourStats df))
        omega
      rw [find_consecutive_periods_short _ hblen]
      rfl
    · rw [if_neg hq]

/-- Exactly three profitable trades, all at hour 9. -/
def hour9Table : List Row :=
  [hourRow 0 9 10, hourRow 1 9 10, hourRow 2 9 10]

/-- Witness for C5: the three-trades-at-hour-9 table produces no golden-hours
insight, and a concrete hour list produces the period `[9, 10]`. -/
theorem golden_hours_rules_witness :
    goldenHourInsights hour9Table = [] ∧
    (2 ≤ [9, 10].length ∧ List.Chain' (fun a b => b = a + 1) [9, 10] ∧
      ∀ x ∈ [9, 10], x ∈ [10, 9, 12]) := by
  constructor
  · apply (golden_hours_rules hour9Table [] 9).2.2
    intro r hr
    fin_cases hr <;> rfl
  · apply (golden_hours_rules hour9Table [10, 9, 12] 9).1
    decide

/-! ### Detector mutation of the shared frame (C6)

`_analyze_overtrading_patterns` (line 242) executes
`df['date'] = pd.to_datetime(df['open_time']).dt.date` and
`_analyze_performance_cycles` (line 820) executes
`df['week'] = pd.to_datetime(df['open_time']).dt.isocalendar().week` on the
shared dataframe before grouping — both write a derived column into the
input.  The frame is modelled as its rows plus the derived columns written by
detectors, and the two detectors become state-passing functions returning
the (possibly modified) frame together with their insights. -/

/-- A dataframe: the builder's rows plus derived columns added later
(name and per-row values). -/
structure Frame where
  rows : List Row
  extra : List (String × List Nat)
deriving DecidableEq, Repr

/-- The `df[name] = values`: overwrite the column if present, else append it. -/
def setCol (name : String) (vals : List Nat) (f : Frame) : Frame :=
  { f with extra :=
      if f.extra.any (fun c => c.1 == name) then
        f.extra.map (fun c => if c.1 == name then (name, vals) else c)
      else f.extra ++ [(name, vals)] }

/-- The calendar-day keys of the rows, ascending (groupby on `date`). -/
def dateKeys (rows : List Row) : List Nat :=
  List.insertionSort (· ≤ ·) (rows.map (fun r => dateOfTime r.open_time)).dedup

/-- The trades of one calendar day. -/
def tradesOnDate (rows : List Row) (d : Nat) : List Row :=
  rows.filter (fun r => dateOfTime r.open_time == d)

/-- The `_analyze_overtrading_patterns` (lines 237-268): writes the `date`
column, groups by day, compares the average daily profit of low-activity
days (at most 3 trades) and high-activity days (at least 10 trades). -/
def analyze_overtrading_patterns (f : Frame) : Frame × List Insight :=
  let f2 := setCol "date" (f.rows.map (fun r => dateOfTime r.open_time)) f
  let daily := (dateKeys f2.rows).map (fun d =>
    (((tradesOnDate f2.rows d).map Row.net_profit).sum,
      (tradesOnDate f2.rows d).length))
  let highFreq := daily.filter (fun p => decide (10 ≤ p.2))
  let lowFreq := daily.filter (fun p => decide (p.2 ≤ 3))
  let insights :=
    if highFreq ≠ [] ∧ lowFreq ≠ [] then
      if meanQ (lowFreq.map Prod.fst) > meanQ (highFreq.map Prod.fst) + 50 then
        [⟨"overtrading_warning",
          meanQ (lowFreq.map Prod.fst) - meanQ (highFreq.map Prod.fst), 4 / 5⟩]
      else []
    else []
  (f2, insights)

/-- The week keys of the rows, ascending (groupby on `week`). -/
def weekKeys (rows : List Row) : List Nat :=
  List.insertionSort (· ≤ ·) (rows.map (fun r => weekOfTime r.open_time)).dedup

/-- The weekly total profits, in week order. -/
def weeklyProfits (rows : List Row) : List ℚ :=
  (weekKeys rows).map (fun w =>
    ((rows.filter (fun r => weekOfTime r.open_time == w)).map
      Row.net_profit).sum)

/-- The loop counting sign changes between consecutive weekly profits
(lines 828-830). -/
def countAlternations : List ℚ → Nat
  | [] => 0
  | [_] => 0
  | a :: b :: rest =>
    (if decide (0 < a) ≠ decide (0 < b) then 1 else 0) +
      countAlternations (b :: rest)

/-- The `_analyze_performance_cycles` (lines 815-844): writes the `week` column,
needs at least 8 weekly buckets, flags an alternation ratio above 0.7. -/
def analyze_performance_cycles (f : Frame) : Frame × List Insight :=
  let f2 := setCol "week" (f.rows.map (fun r => weekOfTime r.open_time)) f
  let wp := weeklyProfits f2.rows
  let insights :=
    if 8 ≤ wp.length then
      if (countAlternations wp : ℚ) / ((wp.length : ℚ) - 1) > 7 / 10 then
        [⟨"cyclical_pattern",
          (countAlternations wp : ℚ) / ((wp.length : ℚ) - 1), 3 / 4⟩]
      else []
    else []
  (f2, insights)

/-- C6 counterexample: on a table with one trade and no derived columns, the
overtrading detector returns a modified frame (a `date` column was added),
and the performance-cycles detector likewise adds a `week` column — the
input table is mutated, contradicting the claim that no detector adds a
column. -/
theorem detectors_mutate_frame_cex :
    (analyze_overtrading_patterns ⟨[rowC2], []⟩).1 ≠ (⟨[rowC2], []⟩ : Frame) ∧
    (analyze_performance_cycles ⟨[rowC2], []⟩).1 ≠ (⟨[rowC2], []⟩ : Frame) := by
  constructor
  · intro hcontra
    have h := congrArg (fun f => f.extra.length) hcontra
    simp [analyze_overtrading_patterns, setCol] at h
  · intro hcontra
    have h := congrArg (fun f => f.extra.length) hcontra
    simp [analyze_performance_cycles, setCol] at h

/-- C6 amended: the two detectors never touch the rows and never modify or
drop a column other than the one they write; the overtrading detector writes
the `date` column (the day index of each row) and the performance-cycles
detector writes the `week` column. -/
theorem detectors_mutate_only_derived_column (f : Frame) :
    (analyze_overtrading_patterns f).1.rows = f.rows ∧
    (analyze_performance_cycles f).1.rows = f.rows ∧
    (∀ c ∈ f.extra, c.1 ≠ "date" →
      c ∈ (analyze_overtrading_patterns f).1.extra) ∧
    (∀ c ∈ f.extra, c.1 ≠ "week" →
      c ∈ (analyze_performance_cycles f).1.extra) ∧
    ("date", f.rows.map (fun r => dateOfTime r.open_time)) ∈
      (analyze_overtrading_patterns f).1.extra ∧
    ("week", f.rows.map (fun r => weekOfTime r.open_time)) ∈
      (analyze_performance_cycles f).1.extra := by
  have hkeep : ∀ (name : String) (vals : List Nat) (c : String × List Nat),
      c ∈ f.extra → c.1 ≠ name → c ∈ (setCol name vals f).extra := by
    intro name vals c hc hne
    unfold setCol
    by_cases hany : f.extra.any (fun c => c.1 == name)
    · rw [if_pos hany]
      refine List.mem_map.mpr ⟨c, hc, ?_⟩
      rw [if_neg (by simpa using hne)]
    · rw [if_neg hany]
      exact List.mem_append_left _ hc
  have hwrite : ∀ (name : String) (vals : List Nat),
      (name, vals) ∈ (setCol name vals f).extra := by
    intro name vals
    unfold setCol
    by_cases hany : f.extra.any (fun c => c.1 == name)
    · rw [if_pos hany]
      rcases List.any_eq_true.mp hany with ⟨c, hc, hcn⟩
      exact List.mem_map.mpr ⟨c, hc, by rw [if_pos hcn]⟩
    · rw [if_neg hany]
      exact List.mem_append_right _ (by simp)
  exact ⟨rfl, rfl, fun c hc hne => hkeep "date" _ c hc hne,
    fun c hc hne => hkeep "week" _ c hc hne, hwrite "date" _, hwrite "week" _⟩

/-- Witness for the amended C6 at a concrete frame holding one foreign
column. -/
theorem detectors_mutate_only_derived_column_witness :
    ("lot_category", [0]) ∈
      (analyze_overtrading_patterns ⟨[rowC2], [("lot_category", [0])]⟩).1.extra ∧
    ("date", [rowC2].map (fun r => dateOfTime r.open_time)) ∈
      (analyze_overtrading_patterns ⟨[rowC2], [("lot_category", [0])]⟩).1.extra := by
  constructor
  · apply (detectors_mutate_only_derived_column
      ⟨[rowC2], [("lot_category", [0])]⟩).2.2.1 ("lot_category", [0])
    · simp
    · simp
  · exact (detectors_mutate_only_derived_column
      ⟨[rowC2], [("lot_category", [0])]⟩).2.2.2.2.1

/-! ### Lot-size optimization and non-finite Sharpe values (C3)

`_analyze_lot_size_optimization` (lines 444-488): when the volumes vary, bin
them into quartiles with `pd.qcut(..., q=4, duplicates='drop')`, falling back
to equal-width `pd.cut` binning (4 bins, or `nunique` bins, or skipping) when
`qcut` raises; per bucket compute `sharpe_ratio = avg_profit / profit_std`
and report the bucket `idxmax` picks.  There is no guard against a zero or
undefined standard deviation: the float division produces `inf`/`nan`, and
`float(best_sharpe)` is emitted as the insight's `value` unchanged (contrast
`pattern_detector.py` line 271, which replaces infinities before use).

The float cells of the `sharpe_ratio` column are modelled exactly: `NaN`
(std of a bucket with fewer than two trades), a signed infinity (division of
a nonzero mean by a zero std), or the exact value `m/sqrt(v)` kept
symbolically as mean and variance so that the embedding stays executable. -/

/-- A pandas float cell of the `sharpe_ratio` column.  `divSqrt m v`
represents the finite value `m / sqrt v` with `v > 0`. -/
inductive SharpeVal where
  | nan : SharpeVal
  | posInf : SharpeVal
  | negInf : SharpeVal
  | divSqrt (m v : ℚ) : SharpeVal
deriving DecidableEq, Repr

/-- Whether a Sharpe cell is a finite real number. -/
def isFiniteSharpe : SharpeVal → Bool
  | .divSqrt _ _ => true
  | _ => false

/-- The strict order on non-`NaN` Sharpe cells used by `idxmax`.  For two
finite cells `m/sqrt v < m2/sqrt v2` is decided exactly by sign analysis and
cross-multiplied squares. -/
def sharpeLt : SharpeVal → SharpeVal → Bool
  | .nan, _ => false
  | _, .nan => false
  | .posInf, _ => false
  | .negInf, .negInf => false
  | .negInf, _ => true
  | .divSqrt _ _, .posInf => true
  | .divSqrt _ _, .negInf => false
  | .divSqrt m v, .divSqrt m2 v2 =>
    if m < 0 then
      if m2 < 0 then decide (m2 * m2 * v < m * m * v2) else true
    else
      if m2 < 0 then false else decide (m * m * v2 < m2 * m2 * v)

/-- Sample variance with the pandas default `ddof=1` (meaningful for lists
of length at least two). -/
def sampleVariance (l : List ℚ) : ℚ :=
  ((l.map (fun x => (x - meanQ l) * (x - meanQ l))).sum) / ((l.length : ℚ) - 1)

/-- The `avg_profit / profit_std` of one bucket with IEEE float semantics: the
std of fewer than two values is `NaN` (so is the quotient); a zero variance
means a zero std, and dividing the mean by it yields a signed infinity (or
`NaN` for a zero mean); otherwise the finite value `mean/sqrt(variance)`.
`variance = 0` is exactly `std = 0` and `variance > 0` exactly `std > 0`. -/
def bucketSharpe (profits : List ℚ) : SharpeVal :=
  if profits.length < 2 then .nan
  else if sampleVariance profits = 0 then
    if 0 < meanQ profits then .posInf
    else if meanQ profits < 0 then .negInf
    else .nan
  else .divSqrt (meanQ profits) (sampleVariance profits)

/-- Linear-interpolation quantile of a sorted list (the interpolation
`qcut` uses for its bin edges). -/
def quantileAt (xs : List ℚ) (p : ℚ) : ℚ :=
  let pos := p * ((xs.length : ℚ) - 1)
  let i := Int.toNat ⌊pos⌋
  let lo := xs.getD i 0
  let hi := xs.getD (i + 1) lo
  lo + (pos - (i : ℚ)) * (hi - lo)

/-- The quartile edges `qcut(q=4)` computes from the volumes. -/
def qcutEdges (vols : List ℚ) : List ℚ :=
  let s := List.insertionSort (· ≤ ·) vols
  [quantileAt s 0, quantileAt s (1 / 4), quantileAt s (1 / 2),
   quantileAt s (3 / 4), quantileAt s 1]

/-- Equal-width edges of `pd.cut(bins = k)` over the volume range. -/
def cutEdges (vols : List ℚ) (k : Nat) : List ℚ :=
  let s := List.insertionSort (· ≤ ·) vols
  let lo := s.headD 0
  let hi := s.getLastD 0
  (List.range (k + 1)).map (fun i => lo + (hi - lo) * (i : ℚ) / (k : ℚ))

/-- The bin of `v` for ordered edges: the first interval
`(edges[i], edges[i+1]]` containing `v`, with the leftmost interval closed on
the left (both `qcut` and `cut` extend the lowest edge to include the
minimum). -/
def binIndexFrom (v : ℚ) : List ℚ → Nat → Nat
  | [], i => i
  | [_], i => i
  | _ :: e2 :: rest, i =>
    if v ≤ e2 then i else binIndexFrom v (e2 :: rest) (i + 1)

/-- The bin index of a volume. -/
def binIndex (edges : List ℚ) (v : ℚ) : Nat := binIndexFrom v edges 0

/-- The binning decision tree of lines 450-466: `qcut` succeeds when its
five quartile edges are distinct (otherwise `duplicates='drop'` leaves fewer
bins than the four labels and `qcut` raises); the caught failure falls back
to four equal-width bins when at least 4 distinct volumes exist, to
`nunique` equal-width bins when at least 2 exist, and otherwise the detector
returns no insights. -/
def lotBucketEdges (df : List Row) : Option (List ℚ) :=
  let vols := df.map Row.volume
  if (qcutEdges vols).dedup.length = 5 then some (qcutEdges vols)
  else
    if 4 ≤ vols.dedup.length then some (cutEdges vols 4)
    else if 2 ≤ vols.dedup.length then some (cutEdges vols vols.dedup.length)
    else none

/-- The net profits of the trades in bucket `j`. -/
def bucketProfits (df : List Row) (edges : List ℚ) (j : Nat) : List ℚ :=
  (df.filter (fun r => binIndex edges r.volume == j)).map Row.net_profit

/-- The `sharpe_ratio` column, one cell per label in category order
(`groupby` on a categorical keeps every category, an empty bucket giving
`NaN` statistics). -/
def lotSharpes (df : List Row) (edges : List ℚ) : List SharpeVal :=
  (List.range (edges.length - 1)).map
    (fun j => bucketSharpe (bucketProfits df edges j))

/-- The `Series.idxmax`: the first index attaining the maximum among the
non-`NaN` cells, `none` when every cell is `NaN` (where pandas raises; that
case is outside the verified claims). -/
def idxmaxSharpeFrom : List SharpeVal → Nat → Option (Nat × SharpeVal) →
    Option (Nat × SharpeVal)
  | [], _, best => best
  | .nan :: rest, i, best => idxmaxSharpeFrom rest (i + 1) best
  | v :: rest, i, none => idxmaxSharpeFrom rest (i + 1) (some (i, v))
  | v :: rest, i, some (bi, bv) =>
    if sharpeLt bv v then idxmaxSharpeFrom rest (i + 1) (some (i, v))
    else idxmaxSharpeFrom rest (i + 1) (some (bi, bv))

/-- The `idxmax` over the Sharpe column. -/
def idxmaxSharpe (l : List SharpeVal) : Option (Nat × SharpeVal) :=
  idxmaxSharpeFrom l 0 none

/-- An emitted position-sizing insight; its `value` is the raw float
`float(best_sharpe)`, which the source does not force to be finite. -/
structure LotInsight where
  type : String
  value : SharpeVal
  confidence : ℚ
deriving DecidableEq, Repr

/-- The `_analyze_lot_size_optimization`: gate on variable volumes
(`df['volume'].std() > 0`, i.e. at least two volumes with positive
variance), bin, and report the best bucket's Sharpe ratio as the insight
value with confidence 0.85. -/
def analyze_lot_size_optimization (df : List Row) : List LotInsight :=
  let vols := df.map Row.volume
  if 2 ≤ vols.length ∧ 0 < sampleVariance vols then
    match lotBucketEdges df with
    | none => []
    | some edges =>
      match idxmaxSharpe (lotSharpes df edges) with
      | none => []
      | some (_, best) => [⟨"position_sizing", best, 17 / 20⟩]
  else []

/-- A trade with volume `vol` and net profit `p`, opened at minute `i`. -/
def lotRow (i : Nat) (vol p : ℚ) : Row :=
  mkRow { sampleTrade with id := i, volume := vol, profit := p,
                           commission := 0, swap := 0, open_time := i }

/-- Five trades with distinct volumes whose smallest quartile bucket holds
two trades of identical positive net profit — a zero-std bucket. -/
def lotFailTable : List Row :=
  [lotRow 0 10 5, lotRow 1 20 5, lotRow 2 30 1, lotRow 3 40 2,
   lotRow 4 41 3]

/-- C3 failing input: on `lotFailTable` the volumes 10,20,30,40,41 bin into
quartile buckets `{10,20}`, `{30}`, `{40}`, `{41}`; the first bucket's two
net profits are both 5, so its profit std is 0 and
`sharpe_ratio = 5 / 0 = +inf`, the singleton buckets give `NaN`; `idxmax`
selects the infinite cell and the detector emits an insight whose `value` is
`+inf` — not a finite number and not replaced by a neutral/zero value. -/
theorem lot_size_emits_infinite_value :
    analyze_lot_size_optimization lotFailTable =
      [⟨"position_sizing", SharpeVal.posInf, 17 / 20⟩] ∧
    (analyze_lot_size_optimization lotFailTable).all
      (fun i => isFiniteSharpe i.value) = false := by
  have hvols : lotFailTable.map Row.volume = [10, 20, 30, 40, 41] := by
    norm_num [lotFailTable, lotRow, mkRow, sampleTrade]
  have hedges : qcutEdges [10, 20, 30, 40, 41] = [10, 20, 30, 40, 41] := by
    norm_num [qcutEdges, quantileAt, List.getD, List.insertionSort,
      List.orderedInsert,
      show Int.toNat 0 = 0 from rfl, show Int.toNat 1 = 1 from rfl,
      show Int.toNat 2 = 2 from rfl, show Int.toNat 3 = 3 from rfl,
      show Int.toNat 4 = 4 from rfl]
  have hvar : (0 : ℚ) < sampleVariance [10, 20, 30, 40, 41] := by
    norm_num [sampleVariance, meanQ]
  have hbe : lotBucketEdges lotFailTable = some [10, 20, 30, 40, 41] := by
    rw [lotBucketEdges, hvols, hedges]
    norm_num [List.dedup]
  have hbp0 : bucketProfits lotFailTable [10, 20, 30, 40, 41] 0 = [5, 5] := by
    norm_num [bucketProfits, lotFailTable, lotRow, mkRow, sampleTrade,
      binIndex, binIndexFrom]
  have hbp1 : bucketProfits lotFailTable [10, 20, 30, 40, 41] 1 = [1] := by
    norm_num [bucketProfits, lotFailTable, lotRow, mkRow, sampleTrade,
      binIndex, binIndexFrom]
  have hbp2 : bucketProfits lotFailTable [10, 20, 30, 40, 41] 2 = [2] := by
    norm_num [bucketProfits, lotFailTable, lotRow, mkRow, sampleTrade,
      binIndex, binIndexFrom]
  have hbp3 : bucketProfits lotFailTable [10, 20, 30, 40, 41] 3 = [3] := by
    norm_num [bucketProfits, lotFailTable, lotRow, mkRow, sampleTrade,
      binIndex, binIndexFrom]
  have hsh : lotSharpes lotFailTable [10, 20, 30, 40, 41] =
      [.posInf, .nan, .nan, .nan] := by
    rw [lotSharpes]
    norm_num [List.range_succ, hbp0, hbp1, hbp2, hbp3, bucketSharpe,
      sampleVariance, meanQ]
  have hmain : analyze_lot_size_optimization lotFailTable =
      [⟨"position_sizing", SharpeVal.posInf, 17 / 20⟩] := by
    rw [analyze_lot_size_optimization, hvols, if_pos ⟨by norm_num, hvar⟩, hbe]
    show (match idxmaxSharpe (lotSharpes lotFailTable [10, 20, 30, 40, 41]) with
      | none => []
      | some (_, best) =>
        [(⟨"position_sizing", best, 17 / 20⟩ : LotInsight)]) =
      [⟨"position_sizing", SharpeVal.posInf, 17 / 20⟩]
    rw [hsh]
    rfl
  exact ⟨hmain, by rw [hmain]; rfl⟩

end QuantaView
